import Mathlib

/-!
Verification of the CXRS validation data pipeline (`src/data.py`,
`src/frame_sampler.py`) against its natural-language specification.

The pipeline manipulates xarray datasets: labelled bundles of variables that
share a `time` coordinate and, per variable, further non-time coordinates.
We embed a dataset as its `time` coordinate vector together with, for each
variable, one flattened "slab" of cells per time point, where a cell is an
`Option ℚ` (`none` models NaN, i.e. a missing value; exact rationals stand in
for the floating-point numbers of the source, so equalities below are the
exact-arithmetic idealisation of the source's float computations).
-/

set_option maxRecDepth 8000

namespace CXRS

/-- One cell of a variable: `none` models NaN (missing). -/
abbrev Val := Option ℚ

/-- All non-time cells of one variable at a single time point, flattened in
row-major order. -/
abbrev Slab := List Val

/-- One named variable of a dataset: its non-time dimensions, their coordinate
vectors, and one slab per time point. -/
structure TVar where
  name : String
  dims : List String
  coords : List (String × List ℚ)
  slabs : List Slab
  deriving Repr, DecidableEq

/-- A dataset: a shared `time` coordinate plus named variables. -/
structure Dataset where
  time : List ℚ
  vars : List TVar
  deriving Repr, DecidableEq

/-- Number of cells in one slab of a variable, from its coordinate vectors. -/
def varWidth (v : TVar) : Nat :=
  (v.coords.map (fun c => c.2.length)).prod

/-- A slab that is entirely missing (all NaN). -/
def missingSlab (w : Nat) : Slab :=
  List.replicate w none

/-- `True` when every cell of every variable at time index `i` is missing:
the condition under which `dropna(dim="time", how="all")` drops index `i`. -/
def timeFullyMissing (ds : Dataset) (i : Nat) : Bool :=
  ds.vars.all (fun v => (v.slabs.getD i []).all (fun c => c = none))

/-- The time coordinate values kept by `dataset.dropna(dim="time", how="all")`:
those whose index is not fully missing, in original order. -/
def dropnaTimes (ds : Dataset) : List ℚ :=
  (ds.time.enum.filter (fun p => ¬ timeFullyMissing ds p.1)).map (fun p => p.2)

/-- Label lookup along `time`: the slab stored at coordinate value `t`, or a
fully-missing slab when `t` is not a stored coordinate. -/
def lookupSlab (tv : List ℚ) (slabs : List Slab) (w : Nat) (t : ℚ) : Slab :=
  match tv.findIdx? (fun x => x = t) with
  | some i => slabs.getD i (missingSlab w)
  | none => missingSlab w

/-- `dataset.sel(time=ts)`: restrict the dataset to the time labels `ts`.
`none` models the `KeyError` xarray raises when a label is absent. -/
def selTimes (ds : Dataset) (ts : List ℚ) : Option Dataset :=
  if ∀ t ∈ ts, t ∈ ds.time then
    some { time := ts,
           vars := ds.vars.map (fun v =>
             { v with slabs := ts.map (lookupSlab ds.time v.slabs (varWidth v)) }) }
  else
    none

/-- Sorted deduplication, as performed by a pandas index union. -/
def sortDedupQ (l : List ℚ) : List ℚ :=
  List.insertionSort (fun a b => a ≤ b) l.dedup

/-- Union of two coordinate index vectors, following pandas `Index.union`:
early return when one side is empty or both are equal, otherwise the sorted
union of the distinct values. -/
def indexUnion (t1 t2 : List ℚ) : List ℚ :=
  if t2 = [] then t1
  else if t1 = t2 then t1
  else sortDedupQ (t1 ++ t2)

/-- Reindex one variable from time vector `oldTime` onto `newTime`, filling
missing labels with fully-missing slabs (xarray outer-join alignment). -/
def realignVar (oldTime newTime : List ℚ) (v : TVar) : TVar :=
  { v with slabs := newTime.map (lookupSlab oldTime v.slabs (varWidth v)) }

/-- `xr.merge` of two datasets: coordinate-aligned union along `time`,
variables of both sides reindexed onto the union. -/
def mergeDs (d1 d2 : Dataset) : Dataset :=
  let u := indexUnion d1.time d2.time
  { time := u,
    vars := d1.vars.map (realignVar d1.time u) ++ d2.vars.map (realignVar d2.time u) }

/-- `xr.merge` of a list of datasets, folded pairwise. -/
def mergeList : List Dataset → Dataset
  | [] => { time := [], vars := [] }
  | d :: ds => ds.foldl mergeDs d

/-- Pointwise linear interpolation between two cells; any missing endpoint
poisons the result (NaN arithmetic). -/
def lerpVal (a b : Val) (θ : ℚ) : Val :=
  match a, b with
  | some x, some y => some (x + (y - x) * θ)
  | _, _ => none

/-- Pointwise linear interpolation between two slabs. -/
def lerpSlab (s1 s2 : Slab) (θ : ℚ) : Slab :=
  List.zipWith (fun a b => lerpVal a b θ) s1 s2

/-- Linear interpolation of a time-indexed family of slabs at query time `t`,
following scipy `interp1d._call_linear` as used by `Dataset.interp`: `none`
for an out-of-range query (xarray fills NaN outside the data range), and the
bracket formula `y_lo + slope * (t - x_lo)` otherwise — also at an exact node
hit, where the clipped bracket `[x_lo, x_hi]` still draws on both endpoint
slabs, so a missing (NaN) bracket neighbor poisons a present node value. -/
def interpPts : List (ℚ × Slab) → ℚ → Option Slab
  | [], _ => none
  | [(x, y)], t => if t = x then some y else none
  | (x1, y1) :: (x2, y2) :: rest, t =>
    if t < x1 then none
    else if t ≤ x2 then some (lerpSlab y1 y2 ((t - x1) / (x2 - x1)))
    else interpPts ((x2, y2) :: rest) t

/-- Interpolate one variable from time vector `oldTime` onto the query grid. -/
def interpVar (oldTime grid : List ℚ) (v : TVar) : TVar :=
  { v with slabs := grid.map (fun t =>
      (interpPts (oldTime.zip v.slabs) t).getD (missingSlab (varWidth v))) }

/-- `dataset.interp(time=grid)`: every variable linearly interpolated along
`time` onto `grid`, which becomes the new time coordinate. -/
def interpDataset (ds : Dataset) (grid : List ℚ) : Dataset :=
  { time := grid, vars := ds.vars.map (interpVar ds.time grid) }

/-- `dataset.expand_dims({"shot_id": [shot_id]})`: the per-shot merged dataset
with its length-one `shot_id` axis. -/
structure MergedDataset where
  shotId : Int
  ds : Dataset
  deriving Repr, DecidableEq

/-!
## `src/data.py`: the Labeled Dataset Builder (`UDALoader`)

A fetched sampled signal exposes a value array, a same-shaped error array and
one coordinate vector per axis (`signal.dims[0].data` is time,
`signal.dims[1].data` is major radius).
-/

/-- A rank-2 sampled signal (time × major_radius), as returned by the UDA
client for radial-profile signals. -/
structure Signal2 where
  data : List (List ℚ)
  errors : List (List ℚ)
  timeDim : List ℚ
  radiusDim : List ℚ
  deriving Repr, DecidableEq

/-- A rank-3 sampled signal (time × major_radius × wavelength), as returned by
the UDA client for volume signals. -/
structure Signal3 where
  data : List (List (List ℚ))
  errors : List (List (List ℚ))
  timeDim : List ℚ
  radiusDim : List ℚ
  deriving Repr, DecidableEq

/-- `UDALoader.get_radial_profile`: wrap a rank-2 signal and its errors into a
dataset with variables `<name>_data` and `<name>_error`, sharing the
`(time, major_radius)` coordinates. -/
def get_radial_profile (name : String) (sig : Signal2) : Dataset :=
  { time := sig.timeDim,
    vars := [
      { name := name ++ "_data",
        dims := ["major_radius"],
        coords := [("major_radius", sig.radiusDim)],
        slabs := sig.data.map (fun row => row.map some) },
      { name := name ++ "_error",
        dims := ["major_radius"],
        coords := [("major_radius", sig.radiusDim)],
        slabs := sig.errors.map (fun row => row.map some) } ] }

/-- `UDALoader.get_volume_data`: wrap a rank-3 signal and its errors into a
dataset with variables `<name>_data` and `<name>_error`, sharing the
`(time, major_radius, wavelength)` coordinates; the wavelength coordinate is
row 0 of the separately fetched wavelength signal. -/
def get_volume_data (name : String) (sig : Signal3) (wl : List (List ℚ)) : Dataset :=
  let wlCoord := wl.getD 0 []
  { time := sig.timeDim,
    vars := [
      { name := name ++ "_data",
        dims := ["major_radius", "wavelength"],
        coords := [("major_radius", sig.radiusDim), ("wavelength", wlCoord)],
        slabs := sig.data.map (fun mat => (mat.map (fun row => row.map some)).flatten) },
      { name := name ++ "_error",
        dims := ["major_radius", "wavelength"],
        coords := [("major_radius", sig.radiusDim), ("wavelength", wlCoord)],
        slabs := sig.errors.map (fun mat => (mat.map (fun row => row.map some)).flatten) } ] }

/-- Read a variable of a dataset back by name (`ds["<name>"]`). -/
def readVar (ds : Dataset) (nm : String) : Option TVar :=
  ds.vars.find? (fun v => v.name = nm)

/-- Strip the missing-value wrapper from a slab of fully present cells. -/
def slabVals (s : Slab) : List ℚ :=
  s.map (fun c => c.getD 0)

/-- Read a rank-2 variable back as its time × major_radius value array. -/
def readMatrix (ds : Dataset) (nm : String) : Option (List (List ℚ)) :=
  (readVar ds nm).map (fun v => v.slabs.map slabVals)

/-- Split a flat list into consecutive rows of length `k` (`k > 0`); the
fuel argument bounds the recursion depth and is set to the list length. -/
def chunkAux (k : Nat) : Nat → List ℚ → List (List ℚ)
  | _, [] => []
  | 0, _ :: _ => []
  | fuel + 1, x :: xs => ((x :: xs).take k) :: chunkAux k fuel ((x :: xs).drop k)

/-- Split a flat list into consecutive rows of length `k` (`k > 0`). -/
def chunk (k : Nat) (l : List ℚ) : List (List ℚ) :=
  chunkAux k l.length l

/-- Read a rank-3 variable back as its time × major_radius × wavelength value
array, un-flattening each slab with the wavelength-axis length `k`. -/
def readCube (ds : Dataset) (nm : String) (k : Nat) : Option (List (List (List ℚ))) :=
  (readVar ds nm).map (fun v => v.slabs.map (fun s => chunk k (slabVals s)))

/-!
## `src/frame_sampler.py`: subsampling, alignment, merging, writing, batching
-/

/-- The conditions a `subsample_dataset` call can raise: numpy's
`ValueError` for sampling without replacement beyond the population
(the spec's InsufficientSamples), Python's `ZeroDivisionError` from
`len(time) // 0`, Python's `UnboundLocalError` when neither strategy branch
assigned `sampled_times`, and xarray's `KeyError` from `.sel` on an absent
label. -/
inductive SubErr where
  | insufficientSamples
  | zeroDivision
  | unboundLocal
  | selKeyError
  deriving Repr, DecidableEq

/-- One step of the process-wide pseudo-random generator state. -/
def rngNext (seed : Nat) : Nat :=
  (seed * 1664525 + 1013904223) % 4294967296

/-- Draw `k` elements without replacement: each draw picks a position from the
remaining population and removes the drawn value. -/
def drawNoReplace : Nat → List ℚ → Nat → List ℚ
  | _, _, 0 => []
  | _, [], _ + 1 => []
  | seed, x :: xs, k + 1 =>
    (x :: xs).getD (seed % (x :: xs).length) 0 ::
      drawNoReplace (rngNext seed)
        ((x :: xs).erase ((x :: xs).getD (seed % (x :: xs).length) 0)) k

/-- `np.random.choice(pop, size=k, replace=False)`: raises `ValueError` on an
empty population or when `k` exceeds the population size; otherwise draws `k`
distinct positions. -/
def np_random_choice (seed : Nat) (pop : List ℚ) (k : Nat) : Except SubErr (List ℚ) :=
  if pop.length = 0 ∨ pop.length < k then .error .insufficientSamples
  else .ok (drawNoReplace seed pop k)

/-- Python's extended slice `l[::k]` for `k ≥ 1`: every `k`-th element from
index 0, preserving order; the fuel argument bounds the recursion depth and
is set to the list length. -/
def sliceStepAux (k : Nat) : Nat → List ℚ → List ℚ
  | _, [] => []
  | 0, _ :: _ => []
  | fuel + 1, x :: xs => x :: sliceStepAux k fuel (xs.drop (k - 1))

/-- Python's extended slice `l[::k]` for `k ≥ 1`: every `k`-th element from
index 0, preserving order. -/
def sliceStep (k : Nat) (l : List ℚ) : List ℚ :=
  sliceStepAux k l.length l

/-- `subsample_dataset(dataset, method, num_samples)` with the generator state
made explicit: drop fully-missing time points, select time labels by the
chosen strategy, and restrict the original dataset to them. -/
def subsample_dataset (ds : Dataset) (method : String) (numSamples : Nat)
    (seed : Nat) : Except SubErr Dataset :=
  let time := dropnaTimes ds
  if method = "random" then
    match np_random_choice seed time numSamples with
    | .error e => .error e
    | .ok sampledTimes => (selTimes ds sampledTimes).elim (.error .selKeyError) .ok
  else if method = "grid" then
    if numSamples = 0 then .error .zeroDivision
    else
      (selTimes ds (sliceStep (max 1 (time.length / numSamples)) time)).elim
        (.error .selKeyError) .ok
  else
    .error .unboundLocal

/-- `min_time = -0.1` (`load_dataset`). -/
def min_time : ℚ := -1 / 10

/-- `max_time = 2.0` (`load_dataset`). -/
def max_time : ℚ := 2

/-- `dt = 0.005` (`load_dataset`). -/
def dt : ℚ := 1 / 200

/-- `np.arange(start, stop, step)` for `step > 0`: the
`⌈(stop - start) / step⌉` values `start + i * step`. -/
def arangeQ (start stop step : ℚ) : List ℚ :=
  (List.range (⌈(stop - start) / step⌉).toNat).map (fun (i : ℕ) => start + (i : ℚ) * step)

/-- `time_base = np.arange(min_time, max_time + dt, dt)`: the pipeline-wide
shared time grid, a constant of `load_dataset`. -/
def time_base : List ℚ :=
  arangeQ min_time (max_time + dt) dt

/-- The UDA client, abstracted as the signals it returns per signal name and
shot: rank-2 fetches, rank-3 fetches and the raw wavelength fetch. -/
structure UDAClient where
  get2 : String → Int → Signal2
  get3 : String → Int → Signal3
  getWl : Int → List (List ℚ)

/-- The `radial_profiles` stage of `load_dataset`: the four radial-profile
signals, each interpolated onto `time_base`, then merged. -/
def radial_profiles (c : UDAClient) (shot : Int) : Dataset :=
  let ss_fit_ratio := get_radial_profile "fit_ratio" (c.get2 "ACT/CEL3/SS/PVB/FIT_RATIO" shot)
  let ss_emissivity := get_radial_profile "emissivity" (c.get2 "ACT/CEL3/SS/PVB/C5291/EMISSIVITY" shot)
  let ss_velocity := get_radial_profile "velocity" (c.get2 "ACT/CEL3/SS/PVB/C5291/VELOCITY" shot)
  let ss_temperature := get_radial_profile "temperature" (c.get2 "ACT/CEL3/SS/PVB/C5291/TEMPERATURE" shot)
  mergeList ([ss_fit_ratio, ss_emissivity, ss_velocity, ss_temperature].map
    (fun profile => interpDataset profile time_base))

/-- The `wavelength_profiles` stage of `load_dataset` before subsampling: the
five volume signals, each interpolated onto `time_base`, then merged. -/
def wavelength_profiles (c : UDAClient) (shot : Int) : Dataset :=
  let ss_fits := get_volume_data "ss_fits" (c.get3 "ACT/CEL3/SS/PVB/SS_FITS" shot) (c.getWl shot)
  let ss_counts := get_volume_data "ss_counts" (c.get3 "ACT/CEL3/SS/COUNTS" shot) (c.getWl shot)
  let ss_bg_counts := get_volume_data "ss_bg_counts" (c.get3 "ACT/CEL3/SS/PVB/SCALED_BG_COUNTS" shot) (c.getWl shot)
  let ss_sub_fits := get_volume_data "ss_sub_fits" (c.get3 "ACT/CEL3/SS/PVB/SUB_FITS" shot) (c.getWl shot)
  let ss_sub_counts := get_volume_data "ss_sub_counts" (c.get3 "ACT/CEL3/SS/PVB/SUB_COUNTS" shot) (c.getWl shot)
  mergeList ([ss_fits, ss_counts, ss_bg_counts, ss_sub_fits, ss_sub_counts].map
    (fun profile => interpDataset profile time_base))

/-- `load_dataset(shot_id, sample_method, num_samples)`: build and align both
profile groups, subsample the volume group, merge and tag with the shot id. -/
def load_dataset (c : UDAClient) (shot : Int) (sampleMethod : String)
    (numSamples : Nat) (seed : Nat) : Except SubErr MergedDataset :=
  match subsample_dataset (wavelength_profiles c shot) sampleMethod numSamples seed with
  | .error e => .error e
  | .ok sub => .ok { shotId := shot, ds := mergeDs (radial_profiles c shot) sub }

/-- The on-disk zarr store: the per-shot datasets appended along `shot_id`,
in write order. -/
abbrev Store := List MergedDataset

/-- `write_dataset(dataset, shot_id, output_path)`: create the store when the
destination file does not exist, else append along the `shot_id` dimension.
The store state is `none` while the destination does not exist. -/
def write_dataset (dsm : MergedDataset) (store : Option Store) : Store :=
  match store with
  | some s => s ++ [dsm]
  | none => [dsm]

/-- A log line of the batch driver, over an arbitrary condition type `ε`. -/
inductive LogEntry (ε : Type) where
  | processing (shot : Int)
  | saved (shot : Int)
  | failed (shot : Int) (e : ε)

/-- The batch driver's state: the store (absent until first write) and the
emitted log. -/
structure BatchState (ε : Type) where
  store : Option Store
  logs : List (LogEntry ε)

/-- `process_shot`: log the shot, run the per-shot pipeline, write on success;
any condition the pipeline raises is caught here, logged with the shot number,
and the state otherwise left unchanged. `load` abstracts
`load_dataset(shot_id, sample_method, num_samples)` together with every
condition the fetches and library calls inside it can raise. -/
def process_shot {ε : Type} (load : Int → Except ε MergedDataset) (shot : Int)
    (st : BatchState ε) : BatchState ε :=
  let logs1 := st.logs ++ [LogEntry.processing shot]
  match load shot with
  | .ok dsm =>
    { store := some (write_dataset dsm st.store), logs := logs1 ++ [LogEntry.saved shot] }
  | .error e =>
    { store := st.store, logs := logs1 ++ [LogEntry.failed shot e] }

/-- `range(a, b + 1)`: the inclusive integer shot range. -/
def intRange (a b : Int) : List Int :=
  (List.range (b + 1 - a).toNat).map (fun i => a + (i : Int))

/-- The parsed command-line arguments of `main`. -/
structure Args where
  shotMin : Int
  shotMax : Int
  outputPath : String
  sampleMethod : String
  numSamples : Nat
  overwrite : Bool
  seed : Nat

/-- The batch loop of `main`: `process_shot` for every shot of the inclusive
range, sequentially, threading the store and log. The `--overwrite` argument
is parsed but never read by the loop or by `write_dataset`. -/
def mainLoop {ε : Type} (load : String → Nat → Int → Except ε MergedDataset)
    (args : Args) (st : BatchState ε) : BatchState ε :=
  (intRange args.shotMin args.shotMax).foldl
    (fun s shot => process_shot (load args.sampleMethod args.numSamples) shot s) st

/-- The per-shot pipeline `main` actually wires into `process_shot`, as a
function of the sampling arguments. -/
def pipelineOf (c : UDAClient) (seed : Nat) :
    String → Nat → Int → Except SubErr MergedDataset :=
  fun sampleMethod numSamples shot => load_dataset c shot sampleMethod numSamples seed

/-!
## Helper lemmas
-/

theorem sliceStepAux_getElem (k : Nat) (hk : 1 ≤ k) (fuel : Nat) (l : List ℚ)
    (hfuel : l.length ≤ fuel) (j : Nat) :
    (sliceStepAux k fuel l)[j]? = l[j * k]? := by
  induction fuel generalizing l j with
  | zero =>
    match l, hfuel with
    | [], _ => simp [sliceStepAux]
  | succ fuel ih =>
    match l with
    | [] => simp [sliceStepAux]
    | x :: xs =>
      rw [sliceStepAux]
      match j with
      | 0 => simp
      | j + 1 =>
        have h1 : (x :: sliceStepAux k fuel (xs.drop (k - 1)))[j + 1]? =
            (sliceStepAux k fuel (xs.drop (k - 1)))[j]? := by simp
        have hfuel2 : (xs.drop (k - 1)).length ≤ fuel := by
          simp only [List.length_drop]
          simp only [List.length_cons] at hfuel
          omega
        rw [h1, ih _ hfuel2, List.getElem?_drop]
        have h3 : 1 ≤ (j + 1) * k := Nat.one_le_iff_ne_zero.mpr (by positivity)
        have h2 : k - 1 + j * k = (j + 1) * k - 1 := by
          cases k with
          | zero => omega
          | succ m => ring_nf; omega
        rw [h2]
        rw [show ((j + 1) * k) = ((j + 1) * k - 1) + 1 by omega]
        simp

theorem sliceStep_getElem (k : Nat) (hk : 1 ≤ k) (l : List ℚ) (j : Nat) :
    (sliceStep k l)[j]? = l[j * k]? :=
  sliceStepAux_getElem k hk l.length l (le_refl _) j

theorem sliceStepAux_length (k : Nat) (hk : 1 ≤ k) (fuel : Nat) (l : List ℚ)
    (hfuel : l.length ≤ fuel) :
    (sliceStepAux k fuel l).length = (l.length + k - 1) / k := by
  induction fuel generalizing l with
  | zero =>
    match l, hfuel with
    | [], _ => simp [sliceStepAux, Nat.div_eq_of_lt (show k - 1 < k by omega)]
  | succ fuel ih =>
    match l with
    | [] => simp [sliceStepAux, Nat.div_eq_of_lt (show k - 1 < k by omega)]
    | x :: xs =>
      rw [sliceStepAux]
      have hfuel2 : (xs.drop (k - 1)).length ≤ fuel := by
        simp only [List.length_drop]
        simp only [List.length_cons] at hfuel
        omega
      simp only [List.length_cons, ih _ hfuel2, List.length_drop]
      have hx : xs.length + 1 + k - 1 = xs.length + k := by omega
      rw [hx, Nat.add_div_right _ (by omega)]
      rcases le_or_lt (k - 1) xs.length with h | h
      · have : xs.length - (k - 1) + k - 1 = xs.length := by omega
        rw [this]
      · have h0 : xs.length - (k - 1) = 0 := by omega
        rw [h0]
        rw [Nat.div_eq_of_lt (by omega), Nat.div_eq_of_lt (by omega)]

theorem sliceStep_length (k : Nat) (hk : 1 ≤ k) (l : List ℚ) :
    (sliceStep k l).length = (l.length + k - 1) / k :=
  sliceStepAux_length k hk l.length l (le_refl _)

theorem sliceStepAux_subset (k : Nat) (fuel : Nat) (l : List ℚ) :
    sliceStepAux k fuel l ⊆ l := by
  induction fuel generalizing l with
  | zero =>
    match l with
    | [] => simp [sliceStepAux]
    | x :: xs => simp [sliceStepAux]
  | succ fuel ih =>
    match l with
    | [] => simp [sliceStepAux]
    | x :: xs =>
      rw [sliceStepAux]
      intro t ht
      rcases List.mem_cons.mp ht with h | h
      · exact h ▸ List.mem_cons_self x xs
      · exact List.mem_cons_of_mem x (List.drop_subset _ xs (ih _ h))

theorem sliceStep_subset (k : Nat) (l : List ℚ) : sliceStep k l ⊆ l :=
  sliceStepAux_subset k l.length l

theorem dropnaTimes_sublist (ds : Dataset) : List.Sublist (dropnaTimes ds) ds.time := by
  have h1 : List.Sublist (ds.time.enum.filter (fun p => ¬ timeFullyMissing ds p.1))
      ds.time.enum := List.filter_sublist _
  have h2 := h1.map Prod.snd
  rw [List.enum_map_snd] at h2
  exact h2

theorem dropnaTimes_subset (ds : Dataset) : dropnaTimes ds ⊆ ds.time :=
  (dropnaTimes_sublist ds).subset

theorem dropnaTimes_nodup (ds : Dataset) (h : ds.time.Nodup) : (dropnaTimes ds).Nodup :=
  h.sublist (dropnaTimes_sublist ds)

theorem getD_mem_of_lt (l : List ℚ) (i : Nat) (h : i < l.length) : l.getD i 0 ∈ l := by
  rw [List.getD_eq_getElem?_getD, List.getElem?_eq_getElem h]
  simp [List.getElem_mem]

theorem drawNoReplace_subperm (seed : Nat) (pop : List ℚ) (k : Nat) :
    List.Subperm (drawNoReplace seed pop k) pop := by
  induction seed, pop, k using drawNoReplace.induct with
  | case1 seed pop => simp [drawNoReplace, List.nil_subperm]
  | case2 seed k => simp [drawNoReplace, List.nil_subperm]
  | case3 seed x xs k ih =>
    rw [drawNoReplace]
    have hc : (x :: xs).getD (seed % (x :: xs).length) 0 ∈ x :: xs :=
      getD_mem_of_lt _ _ (Nat.mod_lt _ (by simp))
    have hperm := List.perm_cons_erase hc
    have hcons : List.Subperm
        ((x :: xs).getD (seed % (x :: xs).length) 0 ::
          drawNoReplace (rngNext seed)
            ((x :: xs).erase ((x :: xs).getD (seed % (x :: xs).length) 0)) k)
        ((x :: xs).getD (seed % (x :: xs).length) 0 ::
          (x :: xs).erase ((x :: xs).getD (seed % (x :: xs).length) 0)) := by
      obtain ⟨w, hw1, hw2⟩ := ih
      exact ⟨_ :: w, hw1.cons _, hw2.cons₂ _⟩
    exact hcons.trans hperm.symm.subperm

theorem drawNoReplace_length (seed : Nat) (pop : List ℚ) (k : Nat)
    (h : k ≤ pop.length) : (drawNoReplace seed pop k).length = k := by
  induction seed, pop, k using drawNoReplace.induct with
  | case1 seed pop => simp [drawNoReplace]
  | case2 seed k => simp at h
  | case3 seed x xs k ih =>
    rw [drawNoReplace]
    have hc : (x :: xs).getD (seed % (x :: xs).length) 0 ∈ x :: xs :=
      getD_mem_of_lt _ _ (Nat.mod_lt _ (by simp))
    have herase := List.length_erase_of_mem hc
    rw [List.length_cons, ih (by rw [herase]; simp at h ⊢; omega)]

theorem subperm_nodup_of {l1 l2 : List ℚ} (h : List.Subperm l1 l2) (hn : l2.Nodup) :
    l1.Nodup := by
  obtain ⟨w, hw1, hw2⟩ := h
  exact hw1.nodup_iff.mp (hn.sublist hw2)

theorem drawNoReplace_nodup (seed : Nat) (pop : List ℚ) (k : Nat)
    (h : pop.Nodup) : (drawNoReplace seed pop k).Nodup :=
  subperm_nodup_of (drawNoReplace_subperm seed pop k) h

theorem drawNoReplace_subset (seed : Nat) (pop : List ℚ) (k : Nat) :
    drawNoReplace seed pop k ⊆ pop :=
  (drawNoReplace_subperm seed pop k).subset

theorem sortDedupQ_eq_left (t1 t2 : List ℚ) (hs : t1.Sorted (· < ·))
    (hsub : ∀ x ∈ t2, x ∈ t1) : sortDedupQ (t1 ++ t2) = t1 := by
  have ht1nodup : t1.Nodup := hs.imp (fun h => ne_of_lt h)
  have hdnodup : ((t1 ++ t2).dedup).Nodup := List.nodup_dedup _
  have hmem : ∀ x, x ∈ (t1 ++ t2).dedup ↔ x ∈ t1 := by
    intro x
    rw [List.mem_dedup, List.mem_append]
    exact ⟨fun h => h.elim id (hsub x), Or.inl⟩
  have hresnodup : (sortDedupQ (t1 ++ t2)).Nodup :=
    (List.perm_insertionSort _ _).nodup_iff.mpr hdnodup
  have hperm1 : List.Perm (sortDedupQ (t1 ++ t2)) ((t1 ++ t2).dedup) :=
    List.perm_insertionSort _ _
  have hperm2 : List.Perm ((t1 ++ t2).dedup) t1 := by
    apply List.perm_of_nodup_nodup_toFinset_eq hdnodup ht1nodup
    apply Finset.ext
    intro x
    simp only [List.mem_toFinset]
    exact hmem x
  have hsorted1 : List.Sorted (fun a b : ℚ => a ≤ b) (sortDedupQ (t1 ++ t2)) :=
    List.sorted_insertionSort _ _
  have hsorted2 : List.Sorted (fun a b : ℚ => a ≤ b) t1 := hs.imp (fun h => le_of_lt h)
  exact List.eq_of_perm_of_sorted (hperm1.trans hperm2) hsorted1 hsorted2

theorem indexUnion_eq_left (t1 t2 : List ℚ) (hs : t1.Sorted (· < ·))
    (hsub : ∀ x ∈ t2, x ∈ t1) : indexUnion t1 t2 = t1 := by
  unfold indexUnion
  by_cases h2 : t2 = []
  · simp [h2]
  · by_cases h12 : t1 = t2
    · simp [h2, h12]
    · simp [h2, h12, sortDedupQ_eq_left t1 t2 hs hsub]

theorem indexUnion_self (t : List ℚ) : indexUnion t t = t := by
  unfold indexUnion
  by_cases h : t = [] <;> simp [h]

theorem arangeQ_sorted (start stop step : ℚ) (hstep : 0 < step) :
    (arangeQ start stop step).Sorted (· < ·) := by
  rw [List.Sorted]
  apply List.pairwise_iff_getElem.mpr
  intro i j hi hj hij
  unfold arangeQ at hi hj ⊢
  simp only [List.getElem_map, List.getElem_range, List.length_map,
    List.length_range] at hi hj ⊢
  have hc : (i : ℚ) < (j : ℚ) := by exact_mod_cast hij
  have := mul_lt_mul_of_pos_right hc hstep
  linarith

theorem time_base_sorted : time_base.Sorted (· < ·) :=
  arangeQ_sorted _ _ _ (by norm_num [dt])

theorem mergeDs_time (d1 d2 : Dataset) :
    (mergeDs d1 d2).time = indexUnion d1.time d2.time := rfl

theorem foldl_mergeDs_time (T : List ℚ) (l : List Dataset) (d : Dataset)
    (hd : d.time = T) (hl : ∀ d2 ∈ l, d2.time = T) :
    (l.foldl mergeDs d).time = T := by
  induction l generalizing d with
  | nil => simpa using hd
  | cons d2 rest ih =>
    rw [List.foldl_cons]
    apply ih
    · rw [mergeDs_time, hd, hl d2 (List.mem_cons_self _ _), indexUnion_self]
    · intro d3 h3
      exact hl d3 (List.mem_cons_of_mem _ h3)

theorem sorted_le_getElem (xs : List ℚ) (hs : xs.Sorted (· < ·)) (i j : Nat)
    (hij : i ≤ j) (hi : i < xs.length) (hj : j < xs.length) : xs[i] ≤ xs[j] := by
  rcases Nat.lt_or_ge i j with h | h
  · exact le_of_lt ((List.pairwise_iff_getElem.mp hs) i j hi hj h)
  · have heq : i = j := by omega
    subst heq
    exact le_refl _

theorem lerpVal_zero (a b : ℚ) : lerpVal (some a) (some b) 0 = some a := by
  simp [lerpVal]

theorem lerpVal_one (a b : ℚ) : lerpVal (some a) (some b) 1 = some b := by
  simp only [lerpVal, mul_one]
  congr 1
  ring

theorem lerpSlab_zero (s1 s2 : Slab) (hl : s1.length = s2.length)
    (h1 : ∀ c ∈ s1, c ≠ none) (h2 : ∀ c ∈ s2, c ≠ none) :
    lerpSlab s1 s2 0 = s1 := by
  induction s1 generalizing s2 with
  | nil => simp [lerpSlab]
  | cons a s1t ih =>
    match s2, hl with
    | b :: s2t, hl =>
      obtain ⟨a2, ha⟩ := Option.ne_none_iff_exists'.mp (h1 a (List.mem_cons_self _ _))
      obtain ⟨b2, hb⟩ := Option.ne_none_iff_exists'.mp (h2 b (List.mem_cons_self _ _))
      subst ha
      subst hb
      show lerpVal (some a2) (some b2) 0 :: lerpSlab s1t s2t 0 = some a2 :: s1t
      rw [lerpVal_zero,
        ih s2t (by simpa using hl) (fun c hc => h1 c (List.mem_cons_of_mem _ hc))
          (fun c hc => h2 c (List.mem_cons_of_mem _ hc))]

theorem lerpSlab_one (s1 s2 : Slab) (hl : s1.length = s2.length)
    (h1 : ∀ c ∈ s1, c ≠ none) (h2 : ∀ c ∈ s2, c ≠ none) :
    lerpSlab s1 s2 1 = s2 := by
  induction s1 generalizing s2 with
  | nil =>
    match s2, hl with
    | [], _ => simp [lerpSlab]
  | cons a s1t ih =>
    match s2, hl with
    | b :: s2t, hl =>
      obtain ⟨a2, ha⟩ := Option.ne_none_iff_exists'.mp (h1 a (List.mem_cons_self _ _))
      obtain ⟨b2, hb⟩ := Option.ne_none_iff_exists'.mp (h2 b (List.mem_cons_self _ _))
      subst ha
      subst hb
      show lerpVal (some a2) (some b2) 1 :: lerpSlab s1t s2t 1 = some b2 :: s2t
      rw [lerpVal_one,
        ih s2t (by simpa using hl) (fun c hc => h1 c (List.mem_cons_of_mem _ hc))
          (fun c hc => h2 c (List.mem_cons_of_mem _ hc))]

theorem interpPts_at_node (xs : List ℚ) (ys : List Slab) (w : Nat)
    (hs : xs.Sorted (· < ·)) (hlen : ys.length = xs.length)
    (hwid : ∀ s ∈ ys, s.length = w)
    (hpres : ∀ s ∈ ys, ∀ c ∈ s, c ≠ none)
    (i : Nat) (hi : i < xs.length) :
    interpPts (xs.zip ys) (xs[i]) = ys[i]? := by
  induction xs generalizing ys i with
  | nil => simp at hi
  | cons x1 tail ih =>
    match ys, hlen with
    | y1 :: ys', hlen =>
    match tail, ys', hlen with
    | [], [], _ =>
      match i, hi with
      | 0, _ => simp [interpPts]
    | x2 :: rest, y2 :: ys2, hlen =>
      have hzip : (x1 :: x2 :: rest).zip (y1 :: y2 :: ys2) =
          (x1, y1) :: (x2, y2) :: rest.zip ys2 := rfl
      have hx1x2 : x1 < x2 := List.rel_of_sorted_cons hs x2 (by simp)
      have hw1 : y1.length = w := hwid y1 (List.mem_cons_self _ _)
      have hw2 : y2.length = w := hwid y2 (by simp)
      have hp1 : ∀ c ∈ y1, c ≠ none := fun c hc => hpres y1 (List.mem_cons_self _ _) c hc
      have hp2 : ∀ c ∈ y2, c ≠ none := fun c hc => hpres y2 (by simp) c hc
      rw [hzip]
      match i, hi with
      | 0, _ =>
        simp only [List.getElem_cons_zero]
        rw [interpPts, if_neg (lt_irrefl x1), if_pos (le_of_lt hx1x2)]
        rw [sub_self, zero_div, lerpSlab_zero y1 y2 (by rw [hw1, hw2]) hp1 hp2]
        simp
      | j + 1, hi =>
        have htail_sorted : (x2 :: rest).Sorted (· < ·) := hs.tail
        have hj : j < (x2 :: rest).length := by simpa using hi
        have hx2le : x2 ≤ (x2 :: rest)[j] :=
          sorted_le_getElem (x2 :: rest) htail_sorted 0 j (by omega) (by simp) hj
        have hx1lt : x1 < (x2 :: rest)[j] := lt_of_lt_of_le hx1x2 hx2le
        have hgoal_idx : (x1 :: x2 :: rest)[j + 1] = (x2 :: rest)[j] := by simp
        rw [interpPts, hgoal_idx, if_neg (not_lt.mpr (le_of_lt hx1lt))]
        match j, hj with
        | 0, _ =>
          simp only [List.getElem_cons_zero]
          rw [if_pos (le_refl x2),
            div_self (sub_ne_zero.mpr (ne_of_gt hx1x2)),
            lerpSlab_one y1 y2 (by rw [hw1, hw2]) hp1 hp2]
          simp
        | j2 + 1, hj =>
          have hx2lt : x2 < (x2 :: rest)[j2 + 1] :=
            (List.pairwise_iff_getElem.mp htail_sorted) 0 (j2 + 1) (by simp) hj (by omega)
          rw [if_neg (not_le.mpr hx2lt)]
          have hrec := ih (y2 :: ys2) htail_sorted (by simpa using hlen)
            (fun s hsm => hwid s (List.mem_cons_of_mem _ hsm))
            (fun s hsm => hpres s (List.mem_cons_of_mem _ hsm)) (j2 + 1) hj
          rw [show ((x2, y2) :: rest.zip ys2) = (x2 :: rest).zip (y2 :: ys2) from rfl,
            hrec]
          simp

theorem interpVar_self (T : List ℚ) (hs : T.Sorted (· < ·)) (v : TVar)
    (hv : v.slabs.length = T.length)
    (hwid : ∀ s ∈ v.slabs, s.length = varWidth v)
    (hpres : ∀ s ∈ v.slabs, ∀ c ∈ s, c ≠ none) :
    interpVar T T v = v := by
  unfold interpVar
  cases v with | mk nm dims coords slabs =>
  simp only [TVar.mk.injEq, true_and]
  apply List.ext_getElem
  · simpa using hv.symm
  · intro i h1 h2
    simp only [List.getElem_map]
    rw [interpPts_at_node T slabs (varWidth (TVar.mk nm dims coords slabs)) hs hv hwid
      hpres i (by simpa using h1)]
    rw [List.getElem?_eq_getElem h2]
    rfl

theorem map_interpVar_self (T : List ℚ) (hs : T.Sorted (· < ·)) :
    ∀ V : List TVar, (∀ v ∈ V, v.slabs.length = T.length) →
      (∀ v ∈ V, ∀ s ∈ v.slabs, s.length = varWidth v) →
      (∀ v ∈ V, ∀ s ∈ v.slabs, ∀ c ∈ s, c ≠ none) →
      V.map (interpVar T T) = V := by
  intro V
  induction V with
  | nil => simp
  | cons v rest ih =>
    intro hlen hwid hpres
    simp only [List.map_cons, List.cons.injEq]
    refine ⟨interpVar_self T hs v (hlen v (List.mem_cons_self _ _))
      (hwid v (List.mem_cons_self _ _)) (hpres v (List.mem_cons_self _ _)), ?_⟩
    exact ih (fun v2 h2 => hlen v2 (List.mem_cons_of_mem _ h2))
      (fun v2 h2 => hwid v2 (List.mem_cons_of_mem _ h2))
      (fun v2 h2 => hpres v2 (List.mem_cons_of_mem _ h2))

theorem interpDataset_self (ds : Dataset) (hs : ds.time.Sorted (· < ·))
    (hlen : ∀ v ∈ ds.vars, v.slabs.length = ds.time.length)
    (hwid : ∀ v ∈ ds.vars, ∀ s ∈ v.slabs, s.length = varWidth v)
    (hpres : ∀ v ∈ ds.vars, ∀ s ∈ v.slabs, ∀ c ∈ s, c ≠ none) :
    interpDataset ds ds.time = ds := by
  cases ds with | mk T V =>
  unfold interpDataset
  simp only [Dataset.mk.injEq, true_and]
  exact map_interpVar_self T hs V hlen hwid hpres

theorem lookupSlab_not_mem (tv : List ℚ) (slabs : List Slab) (w : Nat) (t : ℚ)
    (h : t ∉ tv) : lookupSlab tv slabs w t = missingSlab w := by
  unfold lookupSlab
  have hnone : tv.findIdx? (fun x => x = t) = none := by
    rw [List.findIdx?_eq_none_iff]
    intro x hx
    by_contra hcon
    simp only [Bool.not_eq_false, decide_eq_true_eq] at hcon
    exact h (hcon ▸ hx)
  rw [hnone]

theorem selTimes_of_mem (ds : Dataset) (ts : List ℚ) (h : ∀ t ∈ ts, t ∈ ds.time) :
    selTimes ds ts =
      some { time := ts,
             vars := ds.vars.map (fun v =>
               { v with slabs := ts.map (lookupSlab ds.time v.slabs (varWidth v)) }) } := by
  unfold selTimes
  rw [if_pos h]

theorem selTimes_props (ds : Dataset) (ts : List ℚ) (h : ∀ t ∈ ts, t ∈ ds.time) :
    ∃ out, selTimes ds ts = some out ∧ out.time = ts ∧
      out.vars = ds.vars.map (fun v =>
        { v with slabs := ts.map (lookupSlab ds.time v.slabs (varWidth v)) }) :=
  ⟨_, selTimes_of_mem ds ts h, rfl, rfl⟩

/-!
## Claim theorems
-/

/-- A concrete dataset with ten fully-populated time points, used to
instantiate the subsampler theorems. -/
def ds10 : Dataset :=
  { time := [0, 1, 2, 3, 4, 5, 6, 7, 8, 9],
    vars := [
      { name := "v_data", dims := ["major_radius"], coords := [("major_radius", [1])],
        slabs := List.replicate 10 [some 1] } ] }

/-- C4: for every dataset and `num_samples ≥ 1`, grid subsampling succeeds and
selects exactly every `max(1, ⌊T / num_samples⌋)`-th time point of the
non-missing time set (`T` its size), preserving original time order: the
`j`-th selected time is the `j·k`-th non-missing time for the stride
`k = max 1 (T / num_samples)`, and `⌈T / k⌉` points are selected. -/
theorem grid_subsample_spec (ds : Dataset) (n seed : Nat) (hn : 1 ≤ n) :
    ∃ out, subsample_dataset ds "grid" n seed = .ok out ∧
      out.time.length =
        ((dropnaTimes ds).length + max 1 ((dropnaTimes ds).length / n) - 1) /
          max 1 ((dropnaTimes ds).length / n) ∧
      ∀ j : Nat, out.time[j]? =
        (dropnaTimes ds)[j * max 1 ((dropnaTimes ds).length / n)]? := by
  have hk1 : 1 ≤ max 1 ((dropnaTimes ds).length / n) := le_max_left _ _
  have hmem : ∀ t ∈ sliceStep (max 1 ((dropnaTimes ds).length / n)) (dropnaTimes ds),
      t ∈ ds.time :=
    fun t ht => dropnaTimes_subset ds (sliceStep_subset _ _ ht)
  obtain ⟨out, hsel, htime, -⟩ := selTimes_props ds _ hmem
  refine ⟨out, ?_, ?_, ?_⟩
  · simp only [subsample_dataset, if_true]
    rw [if_neg (show ¬ n = 0 by omega), hsel]
    rw [if_neg (show ¬ ("grid" : String) = "random" by decide)]
    rfl
  · rw [htime]
    exact sliceStep_length _ hk1 _
  · intro j
    rw [htime]
    exact sliceStep_getElem _ hk1 _ j

/-- C4 witness: on a dataset with 10 fully-populated time points and
`num_samples = 5`, grid subsampling returns exactly 5 points at index
stride 2, in original time order. -/
theorem grid_subsample_spec_witness :
    (1 ≤ 5 ∧ ∃ out, subsample_dataset ds10 "grid" 5 0 = .ok out ∧
      out.time.length =
        ((dropnaTimes ds10).length + max 1 ((dropnaTimes ds10).length / 5) - 1) /
          max 1 ((dropnaTimes ds10).length / 5) ∧
      ∀ j : Nat, out.time[j]? =
        (dropnaTimes ds10)[j * max 1 ((dropnaTimes ds10).length / 5)]?) ∧
    (subsample_dataset ds10 "grid" 5 0).toOption.map Dataset.time =
      some [0, 2, 4, 6, 8] :=
  ⟨⟨by decide, grid_subsample_spec ds10 5 0 (by decide)⟩, by decide⟩

/-- C5: for every dataset with duplicate-free time coordinate and
`num_samples ≥ 1`, random subsampling fails with the InsufficientSamples
condition (numpy's `ValueError`) exactly when the non-missing time set has
fewer points than `num_samples`; otherwise it succeeds with `num_samples`
distinct time points (never a duplicate), all drawn from the non-missing
set without replacement. -/
theorem random_subsample_spec (ds : Dataset) (n seed : Nat) (hn : 1 ≤ n)
    (hnodup : ds.time.Nodup) :
    ((dropnaTimes ds).length < n →
      subsample_dataset ds "random" n seed = .error .insufficientSamples) ∧
    (n ≤ (dropnaTimes ds).length →
      ∃ out, subsample_dataset ds "random" n seed = .ok out ∧
        out.time.Nodup ∧ out.time.length = n ∧ ∀ t ∈ out.time, t ∈ dropnaTimes ds) := by
  constructor
  · intro hlt
    simp only [subsample_dataset, if_true]
    unfold np_random_choice
    rw [if_pos (Or.inr hlt)]
  · intro hle
    have hlen0 : ¬ ((dropnaTimes ds).length = 0 ∨ (dropnaTimes ds).length < n) := by
      push_neg
      omega
    have hmem : ∀ t ∈ drawNoReplace seed (dropnaTimes ds) n, t ∈ ds.time :=
      fun t ht => dropnaTimes_subset ds (drawNoReplace_subset seed _ n ht)
    obtain ⟨out, hsel, htime, -⟩ := selTimes_props ds _ hmem
    refine ⟨out, ?_, ?_, ?_, ?_⟩
    · simp only [subsample_dataset, if_true]
      unfold np_random_choice
      rw [if_neg hlen0]
      show (selTimes ds (drawNoReplace seed (dropnaTimes ds) n)).elim
          (Except.error SubErr.selKeyError) Except.ok = Except.ok out
      rw [hsel]
      rfl
    · rw [htime]
      exact drawNoReplace_nodup seed _ n (dropnaTimes_nodup ds hnodup)
    · rw [htime]
      exact drawNoReplace_length seed _ n hle
    · rw [htime]
      exact fun t ht => drawNoReplace_subset seed _ n ht

/-- C5 witness: on the 10-point dataset, requesting 12 samples fails with
InsufficientSamples, and requesting 3 samples yields 3 distinct time points
from the non-missing set. -/
theorem random_subsample_spec_witness :
    (1 ≤ 12 ∧ ds10.time.Nodup ∧
      ((dropnaTimes ds10).length < 12 →
        subsample_dataset ds10 "random" 12 7 = .error .insufficientSamples)) ∧
    (1 ≤ 3 ∧
      (3 ≤ (dropnaTimes ds10).length →
        ∃ out, subsample_dataset ds10 "random" 3 7 = .ok out ∧
          out.time.Nodup ∧ out.time.length = 3 ∧ ∀ t ∈ out.time, t ∈ dropnaTimes ds10)) :=
  ⟨⟨by decide, by decide, (random_subsample_spec ds10 12 7 (by decide) (by decide)).1⟩,
   ⟨by decide, (random_subsample_spec ds10 3 7 (by decide) (by decide)).2⟩⟩

/-- C9: grid subsampling is independent of the random-generator state — two
runs with identical dataset and `num_samples` under arbitrary, possibly
different seed states select identical results. -/
theorem grid_subsample_seed_independent (ds : Dataset) (n : Nat) (seed1 seed2 : Nat) :
    subsample_dataset ds "grid" n seed1 = subsample_dataset ds "grid" n seed2 := rfl

/-- C10: for every method string other than `"random"` and `"grid"`, neither
branch of `subsample_dataset` assigns `sampled_times`, so the call fails with
Python's unbound-local condition rather than returning a dataset or raising a
documented pipeline condition. -/
theorem subsample_unknown_method (ds : Dataset) (n seed : Nat) (method : String)
    (h1 : method ≠ "random") (h2 : method ≠ "grid") :
    subsample_dataset ds method n seed = .error .unboundLocal := by
  simp only [subsample_dataset]
  rw [if_neg h1, if_neg h2]

/-- C10 witness: `method = "nearest"` hits the unbound-local failure. -/
theorem subsample_unknown_method_witness :
    ("nearest" : String) ≠ "random" ∧ ("nearest" : String) ≠ "grid" ∧
      subsample_dataset ds10 "nearest" 5 0 = .error .unboundLocal :=
  ⟨by decide, by decide,
    subsample_unknown_method ds10 5 0 "nearest" (by decide) (by decide)⟩

/-- The log lines one shot's processing emits: `Processing` then either
`Saved` or the failure logged with the shot number and its condition. -/
def shotLogs {ε : Type} (load : Int → Except ε MergedDataset) (s : Int) :
    List (LogEntry ε) :=
  match load s with
  | .ok _ => [LogEntry.processing s, LogEntry.saved s]
  | .error e => [LogEntry.processing s, LogEntry.failed s e]

/-- The shot datasets held by a store state (empty while absent). -/
def storeList : Option Store → Store
  | some s => s
  | none => []

theorem storeList_write (dsm : MergedDataset) (st : Option Store) :
    write_dataset dsm st = storeList st ++ [dsm] := by
  cases st <;> simp [write_dataset, storeList]

theorem foldl_process_shot {ε : Type} (load : Int → Except ε MergedDataset) :
    ∀ (shots : List Int) (st : BatchState ε),
      ((shots.foldl (fun s shot => process_shot load shot s) st).logs =
        st.logs ++ shots.flatMap (shotLogs load)) ∧
      (storeList (shots.foldl (fun s shot => process_shot load shot s) st).store =
        storeList st.store ++ shots.filterMap (fun s => (load s).toOption)) := by
  intro shots
  induction shots with
  | nil => simp
  | cons s rest ih =>
    intro st
    rw [List.foldl_cons]
    obtain ⟨ih1, ih2⟩ := ih (process_shot load s st)
    constructor
    · rw [ih1]
      cases hload : load s with
      | ok dsm =>
        simp [process_shot, hload, shotLogs]
      | error e =>
        simp [process_shot, hload, shotLogs]
    · rw [ih2]
      cases hload : load s with
      | ok dsm =>
        simp only [process_shot, hload, storeList, storeList_write]
        rw [List.filterMap_cons]
        simp [hload, Except.toOption]
      | error e =>
        simp only [process_shot, hload, storeList]
        rw [List.filterMap_cons]
        simp [hload, Except.toOption]

/-- C2: for every inclusive shot range and every per-shot pipeline — over an
arbitrary condition type, including pipelines that fail on every shot — the
batch loop processes each shot of `[shot_min, shot_max]` in order, logs each
failure with its shot number at the per-shot boundary, continues to the next
shot, and returns normally (the total function yields a final state; no
condition escapes); only the successful shots' datasets reach the store. -/
theorem batch_driver_isolation {ε : Type}
    (load : String → Nat → Int → Except ε MergedDataset)
    (args : Args) (st0 : BatchState ε) :
    ((mainLoop load args st0).logs = st0.logs ++
      (intRange args.shotMin args.shotMax).flatMap
        (shotLogs (load args.sampleMethod args.numSamples))) ∧
    (storeList (mainLoop load args st0).store = storeList st0.store ++
      (intRange args.shotMin args.shotMax).filterMap
        (fun s => (load args.sampleMethod args.numSamples s).toOption)) := by
  unfold mainLoop
  exact foldl_process_shot (load args.sampleMethod args.numSamples)
    (intRange args.shotMin args.shotMax) st0

/-- C3: the Append Store Writer creates the store when the destination does
not exist and otherwise appends along `shot_id`, preserving the prior content
as a prefix (never replacing it); and the batch result is identical for any
two values of the `--overwrite` option, which the writer ignores. -/
theorem write_dataset_append_or_create :
    (∀ dsm : MergedDataset, write_dataset dsm none = [dsm]) ∧
    (∀ (dsm : MergedDataset) (s : Store), write_dataset dsm (some s) = s ++ [dsm]) ∧
    (∀ (ε : Type) (load : String → Nat → Int → Except ε MergedDataset) (args : Args)
        (o1 o2 : Bool) (st : BatchState ε),
      mainLoop load { args with overwrite := o1 } st =
        mainLoop load { args with overwrite := o2 } st) :=
  ⟨fun _ => rfl, fun _ _ => rfl, fun _ _ _ _ _ _ => rfl⟩

theorem radial_profiles_time (c : UDAClient) (shot : Int) :
    (radial_profiles c shot).time = time_base := by
  simp only [radial_profiles, List.map_cons, List.map_nil, mergeList]
  apply foldl_mergeDs_time
  · rfl
  · intro d2 h2
    simp only [List.mem_cons, List.not_mem_nil, or_false] at h2
    rcases h2 with h | h | h <;> subst h <;> rfl

theorem wavelength_profiles_time (c : UDAClient) (shot : Int) :
    (wavelength_profiles c shot).time = time_base := by
  simp only [wavelength_profiles, List.map_cons, List.map_nil, mergeList]
  apply foldl_mergeDs_time
  · rfl
  · intro d2 h2
    simp only [List.mem_cons, List.not_mem_nil, or_false] at h2
    rcases h2 with h | h | h | h <;> subst h <;> rfl

/-- C6: the shared time base is the pipeline-wide constant grid determined by
`(min_time, max_time, dt)`, containing exactly `⌈(max_time - min_time)/dt⌉ + 1`
points (421); both profile stages of every shot are interpolated onto exactly
this grid, for every client and shot — the grid is never inferred per shot. -/
theorem time_base_is_shared_constant :
    time_base.length = (⌈(max_time - min_time) / dt⌉).toNat + 1 ∧
    time_base.length = 421 ∧
    (∀ (c : UDAClient) (shot : Int), (radial_profiles c shot).time = time_base) ∧
    (∀ (c : UDAClient) (shot : Int), (wavelength_profiles c shot).time = time_base) :=
  ⟨by with_unfolding_all decide, by with_unfolding_all decide,
    radial_profiles_time, wavelength_profiles_time⟩

/-- A dataset already on the shared grid whose first time point holds a
present value but whose later points are all missing — the NaN-edged shape
the pipeline itself produces for signals that do not span the full grid. -/
def dsC : Dataset :=
  { time := time_base,
    vars := [
      { name := "temperature_data", dims := ["major_radius"],
        coords := [("major_radius", [1])],
        slabs := [some 1] :: List.replicate 420 [none] } ] }

/-- C8 counterexample: re-aligning a dataset that is already on the shared
grid is NOT value-preserving when the dataset carries missing values.  `dsC`
has its time coordinate equal to the grid and one slab per grid point, yet
interpolation turns the present value at node 0 into a missing one: scipy
`interp1d._call_linear` computes `y_lo + slope * (t - x_lo)` from the
clipped bracket, and the missing bracket neighbor poisons the node value. -/
theorem alignment_not_idempotent_counterexample :
    dsC.time = time_base ∧
    (∀ v ∈ dsC.vars, v.slabs.length = dsC.time.length) ∧
    (interpDataset dsC time_base).vars.map (fun v => v.slabs[0]?) = [some [none]] ∧
    dsC.vars.map (fun v => v.slabs[0]?) = [some [some 1]] ∧
    interpDataset dsC time_base ≠ dsC := by
  have h1 : (interpDataset dsC time_base).vars.map (fun v => v.slabs[0]?)
      = [some [none]] := by
    with_unfolding_all decide
  have h2 : dsC.vars.map (fun v => v.slabs[0]?) = [some [some 1]] := by
    with_unfolding_all decide
  refine ⟨rfl, by with_unfolding_all decide, h1, h2, ?_⟩
  intro heq
  rw [heq, h2] at h1
  exact absurd h1 (by with_unfolding_all decide)

/-- C8 (amended): time-base alignment is idempotent on well-formed,
fully-populated datasets — if the time coordinate already equals the shared
grid, every variable has one slab per grid point, each slab has the
variable's width and no cell is missing, then interpolating onto that same
grid leaves the dataset exactly unchanged (the exact-arithmetic form of
"unchanged within floating-point tolerance").  Without the no-missing-value
hypothesis this fails: a present node value with a missing bracket neighbor
is poisoned by the interpolation formula. -/
theorem alignment_idempotent_present (ds : Dataset)
    (htime : ds.time = time_base)
    (hlen : ∀ v ∈ ds.vars, v.slabs.length = ds.time.length)
    (hwid : ∀ v ∈ ds.vars, ∀ s ∈ v.slabs, s.length = varWidth v)
    (hpres : ∀ v ∈ ds.vars, ∀ s ∈ v.slabs, ∀ c ∈ s, c ≠ none) :
    interpDataset ds time_base = ds := by
  rw [← htime]
  apply interpDataset_self ds ?_ hlen hwid hpres
  rw [htime]
  exact time_base_sorted

/-- A concrete fully-populated dataset already on the shared grid, for the
C8 witness. -/
def dsGrid : Dataset :=
  { time := time_base,
    vars := [
      { name := "temperature_data", dims := ["major_radius"],
        coords := [("major_radius", [1])],
        slabs := List.replicate 421 [some 1] } ] }

/-- C8 witness: a fully-populated dataset on the shared 421-point grid is
exactly unchanged by re-alignment onto that grid. -/
theorem alignment_idempotent_present_witness :
    dsGrid.time = time_base ∧
    (∀ v ∈ dsGrid.vars, v.slabs.length = dsGrid.time.length) ∧
    (∀ v ∈ dsGrid.vars, ∀ s ∈ v.slabs, s.length = varWidth v) ∧
    (∀ v ∈ dsGrid.vars, ∀ s ∈ v.slabs, ∀ c ∈ s, c ≠ none) ∧
    interpDataset dsGrid time_base = dsGrid :=
  ⟨rfl, by with_unfolding_all decide, by with_unfolding_all decide,
    by with_unfolding_all decide,
    alignment_idempotent_present dsGrid rfl (by with_unfolding_all decide)
      (by with_unfolding_all decide) (by with_unfolding_all decide)⟩

theorem string_append_ne_of_suffix_ne (s a b : String) (h : a ≠ b) :
    s ++ a ≠ s ++ b := by
  intro hc
  apply h
  have hdata : (s ++ a).data = (s ++ b).data := congrArg String.data hc
  rw [String.data_append, String.data_append] at hdata
  exact String.ext (List.append_cancel_left hdata)

theorem slabVals_map_some (row : List ℚ) : slabVals (row.map some) = row := by
  induction row with
  | nil => simp [slabVals]
  | cons x xs ih => simp_all [slabVals]

theorem slabVals_flatten_map_some (mat : List (List ℚ)) :
    slabVals ((mat.map (fun row => row.map some)).flatten) = mat.flatten := by
  rw [slabVals, List.map_flatten, List.map_map]
  congr 1
  have hcomp : ((List.map fun c : Val => Option.getD c 0) ∘
      fun row : List ℚ => List.map some row) = id := by
    funext row
    simp only [Function.comp_apply, List.map_map]
    exact List.map_congr_left (fun a _ => rfl) |>.trans (List.map_id row)
  rw [hcomp, List.map_id]

theorem chunkAux_flatten (k : Nat) (hk : 0 < k) :
    ∀ (m : List (List ℚ)) (fuel : Nat), (∀ r ∈ m, r.length = k) →
      m.flatten.length ≤ fuel → chunkAux k fuel m.flatten = m := by
  intro m
  induction m with
  | nil =>
    intro fuel _ _
    simp only [List.flatten_nil]
    cases fuel <;> rfl
  | cons r m2 ih =>
    intro fuel hrows hfuel
    have hr : r.length = k := hrows r (List.mem_cons_self _ _)
    match r, hr with
    | [], hr =>
      exfalso
      simp only [List.length_nil] at hr
      omega
    | x :: xs, hr =>
    cases fuel with
    | zero =>
      exfalso
      simp only [List.flatten_cons, List.length_append, List.length_cons,
        Nat.le_zero] at hfuel
      omega
    | succ fuel =>
      have hflat : m2.flatten.length ≤ fuel := by
        simp only [List.flatten_cons, List.length_append, List.length_cons] at hfuel
        omega
      have hcons : (x :: xs) ++ m2.flatten = x :: (xs ++ m2.flatten) := rfl
      rw [List.flatten_cons, hcons, chunkAux, ← hcons]
      rw [List.take_left' hr, List.drop_left' hr]
      rw [ih fuel (fun r2 h2 => hrows r2 (List.mem_cons_of_mem _ h2)) hflat]

theorem chunk_flatten (k : Nat) (hk : 0 < k) (m : List (List ℚ))
    (hrows : ∀ r ∈ m, r.length = k) : chunk k m.flatten = m :=
  chunkAux_flatten k hk m m.flatten.length hrows (le_refl _)

/-- C1 (amended): for every signal, the builders return a dataset whose
variable set is exactly `[<name>_data, <name>_error]` — not `<name>_value` —
with both variables carrying identical coordinates (the signal's own
coordinate vectors), and reading both variables back recovers the original
value and error arrays exactly, for rank-2 signals and for valid rank-3
signals (rows matching the wavelength-axis length). -/
theorem builder_two_vars_roundtrip (name : String) (sig2 : Signal2) (sig3 : Signal3)
    (wl : List (List ℚ)) (hk : 0 < (wl.getD 0 []).length)
    (hrows : ∀ mat ∈ sig3.data, ∀ row ∈ mat, row.length = (wl.getD 0 []).length)
    (herows : ∀ mat ∈ sig3.errors, ∀ row ∈ mat, row.length = (wl.getD 0 []).length) :
    ((get_radial_profile name sig2).vars.map TVar.name =
      [name ++ "_data", name ++ "_error"]) ∧
    ((get_volume_data name sig3 wl).vars.map TVar.name =
      [name ++ "_data", name ++ "_error"]) ∧
    (∀ v ∈ (get_radial_profile name sig2).vars,
      v.coords = [("major_radius", sig2.radiusDim)]) ∧
    ((get_radial_profile name sig2).time = sig2.timeDim) ∧
    (∀ v ∈ (get_volume_data name sig3 wl).vars,
      v.coords = [("major_radius", sig3.radiusDim), ("wavelength", wl.getD 0 [])]) ∧
    ((get_volume_data name sig3 wl).time = sig3.timeDim) ∧
    (readMatrix (get_radial_profile name sig2) (name ++ "_data") = some sig2.data) ∧
    (readMatrix (get_radial_profile name sig2) (name ++ "_error") = some sig2.errors) ∧
    (readCube (get_volume_data name sig3 wl) (name ++ "_data") (wl.getD 0 []).length =
      some sig3.data) ∧
    (readCube (get_volume_data name sig3 wl) (name ++ "_error") (wl.getD 0 []).length =
      some sig3.errors) := by
  have hne : name ++ "_data" ≠ name ++ "_error" :=
    string_append_ne_of_suffix_ne name "_data" "_error" (by decide)
  have hvals : (slabVals ∘ fun row : List ℚ => List.map some row) = id := by
    funext row
    exact slabVals_map_some row
  refine ⟨rfl, rfl, ?_, rfl, ?_, rfl, ?_, ?_, ?_, ?_⟩
  · intro v hv
    simp only [get_radial_profile, List.mem_cons, List.not_mem_nil, or_false] at hv
    rcases hv with h | h <;> subst h <;> rfl
  · intro v hv
    simp only [get_volume_data, List.mem_cons, List.not_mem_nil, or_false] at hv
    rcases hv with h | h <;> subst h <;> rfl
  · simp only [readMatrix, readVar, get_radial_profile]
    rw [List.find?_cons_of_pos _ (by simp)]
    simp only [Option.map_some']
    rw [List.map_map, hvals, List.map_id]
  · simp only [readMatrix, readVar, get_radial_profile]
    rw [List.find?_cons_of_neg _ (by simp [hne]), List.find?_cons_of_pos _ (by simp)]
    simp only [Option.map_some']
    rw [List.map_map, hvals, List.map_id]
  · simp only [readCube, readVar, get_volume_data]
    rw [List.find?_cons_of_pos _ (by simp)]
    simp only [Option.map_some']
    congr 1
    rw [List.map_map]
    apply List.ext_getElem (by simp)
    intro i h1 h2
    simp only [List.getElem_map, Function.comp]
    rw [slabVals_flatten_map_some]
    exact chunk_flatten _ hk _ (fun r hr => hrows _ (List.getElem_mem h2) r hr)
  · simp only [readCube, readVar, get_volume_data]
    rw [List.find?_cons_of_neg _ (by simp [hne]), List.find?_cons_of_pos _ (by simp)]
    simp only [Option.map_some']
    congr 1
    rw [List.map_map]
    apply List.ext_getElem (by simp)
    intro i h1 h2
    simp only [List.getElem_map, Function.comp]
    rw [slabVals_flatten_map_some]
    exact chunk_flatten _ hk _ (fun r hr => herows _ (List.getElem_mem h2) r hr)

/-- A concrete rank-2 sampled signal. -/
def sig2X : Signal2 :=
  { data := [[1, 2]], errors := [[3, 4]], timeDim := [0], radiusDim := [8/10, 9/10] }

/-- A concrete rank-3 sampled signal with one wavelength bin. -/
def sig3X : Signal3 :=
  { data := [[[1], [2]]], errors := [[[3], [4]]], timeDim := [0], radiusDim := [8/10, 9/10] }

/-- The concrete wavelength fetch result. -/
def wlX : List (List ℚ) := [[500]]

/-- C1 counterexample: the Labeled Dataset Builder names its variables
`<name>_data` and `<name>_error`; no variable named `<name>_value` exists, so
the claim's `<name>_value` naming is false on the code. -/
theorem builder_value_name_counterexample :
    (get_radial_profile "temperature" sig2X).vars.map TVar.name =
      ["temperature_data", "temperature_error"] ∧
    ("temperature_value" ∉ (get_radial_profile "temperature" sig2X).vars.map TVar.name) ∧
    (get_volume_data "ss_fits" sig3X wlX).vars.map TVar.name =
      ["ss_fits_data", "ss_fits_error"] ∧
    ("ss_fits_value" ∉ (get_volume_data "ss_fits" sig3X wlX).vars.map TVar.name) :=
  ⟨rfl, by decide, rfl, by decide⟩

/-- C1 witness: the amended naming and exact round-trip hold at the concrete
rank-2 and rank-3 signals above. -/
theorem builder_two_vars_roundtrip_witness :
    (0 < (wlX.getD 0 []).length) ∧
    (∀ mat ∈ sig3X.data, ∀ row ∈ mat, row.length = (wlX.getD 0 []).length) ∧
    (∀ mat ∈ sig3X.errors, ∀ row ∈ mat, row.length = (wlX.getD 0 []).length) ∧
    (((get_radial_profile "t" sig2X).vars.map TVar.name = ["t_data", "t_error"]) ∧
     ((get_volume_data "t" sig3X wlX).vars.map TVar.name = ["t_data", "t_error"]) ∧
     (∀ v ∈ (get_radial_profile "t" sig2X).vars,
       v.coords = [("major_radius", sig2X.radiusDim)]) ∧
     ((get_radial_profile "t" sig2X).time = sig2X.timeDim) ∧
     (∀ v ∈ (get_volume_data "t" sig3X wlX).vars,
       v.coords = [("major_radius", sig3X.radiusDim), ("wavelength", wlX.getD 0 [])]) ∧
     ((get_volume_data "t" sig3X wlX).time = sig3X.timeDim) ∧
     (readMatrix (get_radial_profile "t" sig2X) ("t" ++ "_data") = some sig2X.data) ∧
     (readMatrix (get_radial_profile "t" sig2X) ("t" ++ "_error") = some sig2X.errors) ∧
     (readCube (get_volume_data "t" sig3X wlX) ("t" ++ "_data") (wlX.getD 0 []).length =
       some sig3X.data) ∧
     (readCube (get_volume_data "t" sig3X wlX) ("t" ++ "_error") (wlX.getD 0 []).length =
       some sig3X.errors)) :=
  ⟨by decide, by decide, by decide,
    builder_two_vars_roundtrip "t" sig2X sig3X wlX (by decide) (by decide) (by decide)⟩

theorem selTimes_inv (ds : Dataset) (ts : List ℚ) (o : Dataset)
    (h : selTimes ds ts = some o) :
    (∀ t ∈ ts, t ∈ ds.time) ∧ o.time = ts ∧
    o.vars = ds.vars.map (fun v =>
      { v with slabs := ts.map (lookupSlab ds.time v.slabs (varWidth v)) }) := by
  unfold selTimes at h
  split at h
  · next hcond =>
    injection h with h2
    subst h2
    exact ⟨hcond, rfl, rfl⟩
  · cases h

theorem subsample_random_eq (ds : Dataset) (n seed : Nat) :
    subsample_dataset ds "random" n seed =
      match np_random_choice seed (dropnaTimes ds) n with
      | .error e => .error e
      | .ok ts => (selTimes ds ts).elim (.error .selKeyError) .ok := by
  simp only [subsample_dataset, if_true]

theorem subsample_grid_eq (ds : Dataset) (n seed : Nat) :
    subsample_dataset ds "grid" n seed =
      if n = 0 then .error .zeroDivision
      else (selTimes ds (sliceStep (max 1 ((dropnaTimes ds).length / n))
        (dropnaTimes ds))).elim (.error .selKeyError) .ok := by
  simp only [subsample_dataset, if_true]
  rw [if_neg (show ¬ ("grid" : String) = "random" by decide)]

theorem subsample_ok_inv (ds : Dataset) (method : String) (n seed : Nat)
    (sub : Dataset) (h : subsample_dataset ds method n seed = .ok sub) :
    (∀ t ∈ sub.time, t ∈ ds.time) ∧
    sub.vars = ds.vars.map (fun v =>
      { v with slabs := sub.time.map (lookupSlab ds.time v.slabs (varWidth v)) }) := by
  by_cases hm1 : method = "random"
  · subst hm1
    rw [subsample_random_eq] at h
    rcases hnp : np_random_choice seed (dropnaTimes ds) n with e | ts
    · rw [hnp] at h
      have h2 : (Except.error e : Except SubErr Dataset) = Except.ok sub := h
      cases h2
    · rw [hnp] at h
      have h2 : (selTimes ds ts).elim (Except.error SubErr.selKeyError) Except.ok =
          Except.ok sub := h
      rcases hsel : selTimes ds ts with _ | o
      · rw [hsel] at h2
        cases h2
      · rw [hsel] at h2
        have h3 : (Except.ok o : Except SubErr Dataset) = Except.ok sub := h2
        injection h3 with h4
        obtain ⟨hmem, htime, hvars⟩ := selTimes_inv ds ts o hsel
        subst h4
        constructor
        · rw [htime]
          exact hmem
        · rw [htime]
          exact hvars
  · by_cases hm2 : method = "grid"
    · subst hm2
      rw [subsample_grid_eq] at h
      by_cases hn0 : n = 0
      · rw [if_pos hn0] at h
        cases h
      · rw [if_neg hn0] at h
        rcases hsel : selTimes ds (sliceStep (max 1 ((dropnaTimes ds).length / n))
            (dropnaTimes ds)) with _ | o
        · rw [hsel] at h
          cases h
        · rw [hsel] at h
          have h3 : (Except.ok o : Except SubErr Dataset) = Except.ok sub := h
          injection h3 with h4
          obtain ⟨hmem, htime, hvars⟩ := selTimes_inv ds _ o hsel
          subst h4
          constructor
          · rw [htime]
            exact hmem
          · rw [htime]
            exact hvars
    · simp only [subsample_dataset, if_neg hm1, if_neg hm2] at h
      cases h

theorem mergeDs_vars (d1 d2 : Dataset) :
    (mergeDs d1 d2).vars =
      d1.vars.map (realignVar d1.time (indexUnion d1.time d2.time)) ++
      d2.vars.map (realignVar d2.time (indexUnion d1.time d2.time)) := rfl

theorem radial_profiles_vars_length (c : UDAClient) (shot : Int) :
    (radial_profiles c shot).vars.length = 8 := rfl

/-- C7: every merged per-shot dataset `load_dataset` returns carries the full
fixed time base as its time coordinate — the merge of the subsampled volume
dataset with the non-subsampled radial profiles restores the full axis by
coordinate union — and every volume variable is entirely missing at each time
point outside the sampled set, rather than the time axis being shortened. -/
theorem load_dataset_full_time_axis (c : UDAClient) (shot : Int) (method : String)
    (n seed : Nat) (out : MergedDataset)
    (h : load_dataset c shot method n seed = .ok out) :
    out.shotId = shot ∧
    out.ds.time = time_base ∧
    ∃ sampled : List ℚ, (∀ t ∈ sampled, t ∈ time_base) ∧
      ∀ v ∈ out.ds.vars.drop 8, ∀ i : Nat, ∀ t : ℚ,
        out.ds.time[i]? = some t → t ∉ sampled →
          v.slabs[i]? = some (missingSlab (varWidth v)) := by
  unfold load_dataset at h
  rcases hsub : subsample_dataset (wavelength_profiles c shot) method n seed with e | sub
  · rw [hsub] at h
    cases h
  · rw [hsub] at h
    injection h with h2
    subst h2
    obtain ⟨hsubmem, -⟩ :=
      subsample_ok_inv (wavelength_profiles c shot) method n seed sub hsub
    have hsubtb : ∀ t ∈ sub.time, t ∈ time_base := by
      intro t ht
      have := hsubmem t ht
      rwa [wavelength_profiles_time] at this
    have hunion : indexUnion (radial_profiles c shot).time sub.time = time_base := by
      rw [radial_profiles_time]
      exact indexUnion_eq_left time_base sub.time time_base_sorted hsubtb
    refine ⟨rfl, ?_, sub.time, hsubtb, ?_⟩
    · show indexUnion (radial_profiles c shot).time sub.time = time_base
      exact hunion
    · intro v hv i t hti htns
      rw [mergeDs_vars] at hv
      rw [List.drop_left' (by
        rw [List.length_map, radial_profiles_vars_length])] at hv
      obtain ⟨v0, hv0, hveq⟩ := List.mem_map.mp hv
      subst hveq
      have hti2 : (indexUnion (radial_profiles c shot).time sub.time)[i]? = some t := by
        have : (mergeDs (radial_profiles c shot) sub).time =
            indexUnion (radial_profiles c shot).time sub.time := rfl
        rw [this] at hti
        exact hti
      show ((indexUnion (radial_profiles c shot).time sub.time).map
        (lookupSlab sub.time v0.slabs (varWidth v0)))[i]? = _
      rw [List.getElem?_map, hti2]
      simp only [Option.map_some']
      rw [lookupSlab_not_mem sub.time v0.slabs (varWidth v0) t htns]
      rfl

/-- A rank-2 signal with no samples, for the C7 witness client. -/
def sig2W : Signal2 := { data := [], errors := [], timeDim := [], radiusDim := [] }

/-- A rank-3 signal with no samples, for the C7 witness client. -/
def sig3W : Signal3 := { data := [], errors := [], timeDim := [], radiusDim := [] }

/-- A concrete UDA client whose signals are all empty. -/
def clientW : UDAClient :=
  { get2 := fun _ _ => sig2W, get3 := fun _ _ => sig3W, getWl := fun _ => [] }

/-- Every variable of the dataset has zero-width slabs, all empty. -/
def nilVars (ds : Dataset) : Prop :=
  ∀ v ∈ ds.vars, varWidth v = 0 ∧ ∀ s ∈ v.slabs, s = []

theorem lookupSlab_eq_nil (tv : List ℚ) (slabs : List Slab) (t : ℚ)
    (hs : ∀ s ∈ slabs, s = []) : lookupSlab tv slabs 0 t = [] := by
  unfold lookupSlab
  cases hf : tv.findIdx? (fun x => x = t) with
  | none => rfl
  | some i =>
    show slabs.getD i (missingSlab 0) = []
    rcases lt_or_ge i slabs.length with hi | hi
    · rw [List.getD_eq_getElem?_getD, List.getElem?_eq_getElem hi]
      simpa using hs _ (List.getElem_mem hi)
    · rw [List.getD_eq_getElem?_getD, List.getElem?_eq_none (by omega)]
      rfl

theorem nilVars_mergeDs (d1 d2 : Dataset) (h1 : nilVars d1) (h2 : nilVars d2) :
    nilVars (mergeDs d1 d2) := by
  intro v hv
  rw [mergeDs_vars] at hv
  rcases List.mem_append.mp hv with hv2 | hv2
  · obtain ⟨v0, hv0, hveq⟩ := List.mem_map.mp hv2
    obtain ⟨hw0, hs0⟩ := h1 v0 hv0
    subst hveq
    refine ⟨hw0, ?_⟩
    intro s hsmem
    obtain ⟨t, ht, hseq⟩ := List.mem_map.mp hsmem
    rw [← hseq, hw0]
    exact lookupSlab_eq_nil _ _ _ hs0
  · obtain ⟨v0, hv0, hveq⟩ := List.mem_map.mp hv2
    obtain ⟨hw0, hs0⟩ := h2 v0 hv0
    subst hveq
    refine ⟨hw0, ?_⟩
    intro s hsmem
    obtain ⟨t, ht, hseq⟩ := List.mem_map.mp hsmem
    rw [← hseq, hw0]
    exact lookupSlab_eq_nil _ _ _ hs0

theorem nilVars_interp_empty_volume (nm sn : String) :
    nilVars (interpDataset (get_volume_data nm (clientW.get3 sn 1) (clientW.getWl 1))
      time_base) := by
  intro v hv
  simp only [interpDataset, get_volume_data, clientW, sig3W, List.map_cons,
    List.map_nil, List.mem_cons, List.not_mem_nil, or_false] at hv
  rcases hv with h | h <;> subst h <;>
    refine ⟨rfl, ?_⟩ <;>
    · intro s hsmem
      simp only [interpVar, List.map_nil] at hsmem
      obtain ⟨t, ht, hseq⟩ := List.mem_map.mp hsmem
      rw [← hseq]
      rfl

theorem wavelength_profiles_clientW_nilVars : nilVars (wavelength_profiles clientW 1) := by
  simp only [wavelength_profiles, List.map_cons, List.map_nil, mergeList,
    List.foldl_cons, List.foldl_nil]
  exact nilVars_mergeDs _ _
    (nilVars_mergeDs _ _
      (nilVars_mergeDs _ _
        (nilVars_mergeDs _ _
          (nilVars_interp_empty_volume "ss_fits" "ACT/CEL3/SS/PVB/SS_FITS")
          (nilVars_interp_empty_volume "ss_counts" "ACT/CEL3/SS/COUNTS"))
        (nilVars_interp_empty_volume "ss_bg_counts" "ACT/CEL3/SS/PVB/SCALED_BG_COUNTS"))
      (nilVars_interp_empty_volume "ss_sub_fits" "ACT/CEL3/SS/PVB/SUB_FITS"))
    (nilVars_interp_empty_volume "ss_sub_counts" "ACT/CEL3/SS/PVB/SUB_COUNTS")

theorem timeFullyMissing_of_nilVars (ds : Dataset) (h : nilVars ds) (i : Nat) :
    timeFullyMissing ds i = true := by
  unfold timeFullyMissing
  rw [List.all_eq_true]
  intro v hv
  obtain ⟨hw, hs⟩ := h v hv
  have hslab : v.slabs.getD i [] = [] := by
    rcases lt_or_ge i v.slabs.length with hi | hi
    · rw [List.getD_eq_getElem?_getD, List.getElem?_eq_getElem hi]
      simpa using hs _ (List.getElem_mem hi)
    · rw [List.getD_eq_getElem?_getD, List.getElem?_eq_none (by omega)]
      rfl
  rw [hslab]
  rfl

theorem dropnaTimes_eq_nil (ds : Dataset) (h : ∀ i, timeFullyMissing ds i = true) :
    dropnaTimes ds = [] := by
  unfold dropnaTimes
  have hfil : ds.time.enum.filter (fun p => ¬ timeFullyMissing ds p.1) = [] := by
    rw [List.filter_eq_nil_iff]
    intro p hp
    simp [h p.1]
  rw [hfil]
  rfl

theorem dropnaTimes_clientW_nil : dropnaTimes (wavelength_profiles clientW 1) = [] :=
  dropnaTimes_eq_nil _
    (timeFullyMissing_of_nilVars _ wavelength_profiles_clientW_nilVars)

/-- The volume dataset the C7 witness pipeline selects: no sampled times. -/
def subW : Dataset :=
  { time := [],
    vars := (wavelength_profiles clientW 1).vars.map (fun v => { v with slabs := [] }) }

/-- The merged dataset the C7 witness pipeline produces. -/
def outW : MergedDataset :=
  { shotId := 1, ds := mergeDs (radial_profiles clientW 1) subW }

theorem subsample_clientW :
    subsample_dataset (wavelength_profiles clientW 1) "grid" 5 0 = .ok subW := by
  rw [subsample_grid_eq, if_neg (show ¬ (5 = 0) by decide), dropnaTimes_clientW_nil]
  have hslice : sliceStep (max 1 (([] : List ℚ).length / 5)) ([] : List ℚ) = [] := rfl
  rw [hslice, selTimes_of_mem (wavelength_profiles clientW 1) [] (by simp),
    Option.elim_some]
  all_goals simp only [subW, List.map_nil]

theorem load_dataset_eq (c : UDAClient) (shot : Int) (m : String) (n seed : Nat) :
    load_dataset c shot m n seed =
      match subsample_dataset (wavelength_profiles c shot) m n seed with
      | .error e => .error e
      | .ok sub => .ok { shotId := shot, ds := mergeDs (radial_profiles c shot) sub } :=
  rfl

theorem load_dataset_clientW : load_dataset clientW 1 "grid" 5 0 = .ok outW := by
  rw [load_dataset_eq, subsample_clientW]
  all_goals rfl

/-- C7 witness: on a concrete client, `load_dataset` succeeds and its merged
dataset carries the full shared time base, with every volume variable missing
outside the (here empty) sampled time set. -/
theorem load_dataset_full_time_axis_witness :
    load_dataset clientW 1 "grid" 5 0 = .ok outW ∧
    (outW.shotId = 1 ∧
     outW.ds.time = time_base ∧
     ∃ sampled : List ℚ, (∀ t ∈ sampled, t ∈ time_base) ∧
       ∀ v ∈ outW.ds.vars.drop 8, ∀ i : Nat, ∀ t : ℚ,
         outW.ds.time[i]? = some t → t ∉ sampled →
           v.slabs[i]? = some (missingSlab (varWidth v))) :=
  ⟨load_dataset_clientW,
    load_dataset_full_time_axis clientW 1 "grid" 5 0 outW load_dataset_clientW⟩

end CXRS
